import Mathlib

/-!
Verification of the aggregation and normalization engine of a multi-account
payment reporting server, shallowly embedded from the TypeScript source
(`src/server/services/stripeService.ts` and the server route files).

Modelling conventions:
* Calendar days (in the requested timezone) are integers; the composite
  conversion from a Unix timestamp to the local calendar day that the
  source performs via the `moment` library is an arbitrary parameter
  function `dayOf : Int -> Int` (quantifying over it quantifies over the
  timezone).
* Monetary arithmetic, carried out by the source on JavaScript numbers,
  is modelled exactly over the rationals; `Math.round` corresponds to
  Mathlib `round` (both send x to the floor of x + 1/2).
* Fallible upstream calls are modelled with `Except`; the try/catch
  blocks of the source become pattern matches on the `Except` value.
-/

namespace StripeApp

/-- A raw charge record as used by the aggregation pipeline: the Stripe
identifier (cursor for pagination), the amount in minor units, and the
creation timestamp in Unix seconds.  Declines are charge records too. -/
structure ChargeRec where
  id : String
  amount : Int
  created : Int
  deriving DecidableEq

/-- A raw refund record (amount in minor units, Unix creation time). -/
structure RefundRec where
  id : String
  amount : Int
  created : Int
  deriving DecidableEq

/-- A raw dispute (chargeback) record. -/
structure DisputeRec where
  id : String
  amount : Int
  created : Int
  deriving DecidableEq

/-- The per-day summary row built by `groupTransactionsByDate`
(`TransactionData` in `src/server/types`).  Counts are naturals, amounts
are rationals in major units, the date is the calendar-day number. -/
structure TransactionData where
  date : Int
  charges_count : Nat
  charges_amount : ℚ
  refunds_count : Nat
  refunds_amount : ℚ
  chargebacks_count : Nat
  chargebacks_amount : ℚ
  declines_count : Nat
  aprvl_pct : ℚ
  totals_count : Nat
  totals_amount : ℚ
  account_id : String
  deriving DecidableEq

/-- `Math.round(q * 100) / 100` : round to two decimal places, used by the
source on every monetary field and on the approval percentage. -/
def round2 (q : ℚ) : ℚ := (round (q * 100) : ℤ) / 100

/-- The zero-filled bucket created for every date of the requested range
(the object literal in the initialization loop of
`groupTransactionsByDate`).  The approval percentage starts at 100. -/
def initBucket (accountId : String) (d : Int) : TransactionData :=
  { date := d
    charges_count := 0
    charges_amount := 0
    refunds_count := 0
    refunds_amount := 0
    chargebacks_count := 0
    chargebacks_amount := 0
    declines_count := 0
    aprvl_pct := 100
    totals_count := 0
    totals_amount := 0
    account_id := accountId }

/-- The inclusive range of calendar days walked by the initialization
loop (`while currentDate.isSameOrBefore(endMoment, 'day')`). -/
def rangeDays (startDate endDate : Int) : List Int :=
  (List.range (endDate - startDate + 1).toNat).map (fun (i : Nat) => startDate + (i : Int))

/-- Keyed update of the bucket list: the source mutates
`dailyData[dateStr]` when that key exists; dates are unique keys, so this
is a map over the bucket list that rewrites the bucket carrying date `d`. -/
def bump (d : Int) (f : TransactionData → TransactionData)
    (bs : List TransactionData) : List TransactionData :=
  bs.map (fun b => if b.date = d then f b else b)

/-- Effect of one charge on its bucket: increments the charge count and
the overall count, adds amount/100 to the charge amount and to the net
total. -/
def chargeUpd (c : ChargeRec) (b : TransactionData) : TransactionData :=
  { b with
    charges_count := b.charges_count + 1
    charges_amount := b.charges_amount + (c.amount : ℚ) / 100
    totals_count := b.totals_count + 1
    totals_amount := b.totals_amount + (c.amount : ℚ) / 100 }

/-- Effect of one refund on its bucket: adds amount/100 to the refund
amount but subtracts it from the net total. -/
def refundUpd (r : RefundRec) (b : TransactionData) : TransactionData :=
  { b with
    refunds_count := b.refunds_count + 1
    refunds_amount := b.refunds_amount + (r.amount : ℚ) / 100
    totals_count := b.totals_count + 1
    totals_amount := b.totals_amount - (r.amount : ℚ) / 100 }

/-- Effect of one chargeback on its bucket: adds amount/100 to the
chargeback amount but subtracts it from the net total. -/
def chargebackUpd (cb : DisputeRec) (b : TransactionData) : TransactionData :=
  { b with
    chargebacks_count := b.chargebacks_count + 1
    chargebacks_amount := b.chargebacks_amount + (cb.amount : ℚ) / 100
    totals_count := b.totals_count + 1
    totals_amount := b.totals_amount - (cb.amount : ℚ) / 100 }

/-- Effect of one decline on its bucket: only the decline count and the
overall count move; no monetary field changes. -/
def declineUpd (_dc : ChargeRec) (b : TransactionData) : TransactionData :=
  { b with
    declines_count := b.declines_count + 1
    totals_count := b.totals_count + 1 }

/-- The final pass of `groupTransactionsByDate`: round every monetary
field to two decimals and compute the approval percentage
(100 when the day saw no charge and no decline). -/
def finalizeBucket (b : TransactionData) : TransactionData :=
  { b with
    charges_amount := round2 b.charges_amount
    refunds_amount := round2 b.refunds_amount
    chargebacks_amount := round2 b.chargebacks_amount
    totals_amount := round2 b.totals_amount
    aprvl_pct :=
      if 0 < b.charges_count + b.declines_count then
        round2 ((b.charges_count : ℚ) / ((b.charges_count + b.declines_count : Nat) : ℚ) * 100)
      else 100 }

/-- `groupTransactionsByDate` from `stripeService.ts`: initialize one
zero bucket per day of the inclusive range, fold the four record lists
into the buckets (records whose local day has no bucket are dropped),
then finalize every bucket.  `dayOf` is the timestamp-to-local-day
conversion determined by the timezone. -/
def groupTransactionsByDate (charges : List ChargeRec) (refunds : List RefundRec)
    (chargebacks : List DisputeRec) (declines : List ChargeRec)
    (startDate endDate : Int) (dayOf : Int → Int) (accountId : String) :
    List TransactionData :=
  let init := (rangeDays startDate endDate).map (initBucket accountId)
  let s1 := charges.foldl (fun bs c => bump (dayOf c.created) (chargeUpd c) bs) init
  let s2 := refunds.foldl (fun bs r => bump (dayOf r.created) (refundUpd r) bs) s1
  let s3 := chargebacks.foldl (fun bs cb => bump (dayOf cb.created) (chargebackUpd cb) bs) s2
  let s4 := declines.foldl (fun bs dc => bump (dayOf dc.created) (declineUpd dc) bs) s3
  s4.map finalizeBucket

/-- Per-bucket view of folding a record list into the bucket map. -/
def applyRecs {R : Type} (day : R → Int) (upd : R → TransactionData → TransactionData)
    (l : List R) (b : TransactionData) : TransactionData :=
  l.foldl (fun b r => if b.date = day r then upd r b else b) b

theorem foldl_map_comm {α β : Type} (g : β → α → α) (l : List β) (bs : List α) :
    l.foldl (fun s r => s.map (g r)) bs = bs.map (fun b => l.foldl (fun b r => g r b) b) := by
  induction l generalizing bs with
  | nil => simp
  | cons r t ih =>
      simp only [List.foldl_cons, ih, List.map_map]
      rfl

/-- The evolution of the bucket of one single day under the whole record
stream: charges, then refunds, then chargebacks, then declines, then the
finalization pass. -/
def dayPipeline (charges : List ChargeRec) (refunds : List RefundRec)
    (chargebacks : List DisputeRec) (declines : List ChargeRec)
    (dayOf : Int → Int) (accountId : String) (d : Int) : TransactionData :=
  finalizeBucket
    (applyRecs (fun dc => dayOf dc.created) declineUpd declines
      (applyRecs (fun cb => dayOf cb.created) chargebackUpd chargebacks
        (applyRecs (fun r => dayOf r.created) refundUpd refunds
          (applyRecs (fun c => dayOf c.created) chargeUpd charges
            (initBucket accountId d)))))

/-- The whole pipeline acts on each day independently: the output is a
map over the day range. -/
theorem groupTransactionsByDate_eq_map (charges : List ChargeRec) (refunds : List RefundRec)
    (chargebacks : List DisputeRec) (declines : List ChargeRec)
    (startDate endDate : Int) (dayOf : Int → Int) (accountId : String) :
    groupTransactionsByDate charges refunds chargebacks declines startDate endDate dayOf accountId
      = (rangeDays startDate endDate).map
          (dayPipeline charges refunds chargebacks declines dayOf accountId) := by
  unfold groupTransactionsByDate bump dayPipeline
  simp only [foldl_map_comm, List.map_map]
  rfl

theorem applyRecs_cons {R : Type} (day : R → Int) (upd : R → TransactionData → TransactionData)
    (r : R) (t : List R) (b : TransactionData) :
    applyRecs day upd (r :: t) b
      = applyRecs day upd t (if b.date = day r then upd r b else b) := rfl

theorem applyRecs_date {R : Type} (day : R → Int) (upd : R → TransactionData → TransactionData)
    (h : ∀ r b, (upd r b).date = b.date) (l : List R) (b : TransactionData) :
    (applyRecs day upd l b).date = b.date := by
  induction l generalizing b with
  | nil => rfl
  | cons r t ih =>
      rw [applyRecs_cons, ih]
      split
      · exact h r b
      · rfl

theorem applyRecs_of_no_hit {R : Type} (day : R → Int) (upd : R → TransactionData → TransactionData)
    (l : List R) (b : TransactionData) (h : ∀ r ∈ l, day r ≠ b.date) :
    applyRecs day upd l b = b := by
  induction l with
  | nil => rfl
  | cons r t ih =>
      rw [applyRecs_cons, if_neg (fun hb => h r (by simp) (hb.symm))]
      exact ih fun r hr => h r (by simp [hr])

theorem chargeUpd_date (c : ChargeRec) (b : TransactionData) : (chargeUpd c b).date = b.date := rfl

theorem refundUpd_date (r : RefundRec) (b : TransactionData) : (refundUpd r b).date = b.date := rfl

theorem chargebackUpd_date (cb : DisputeRec) (b : TransactionData) :
    (chargebackUpd cb b).date = b.date := rfl

theorem declineUpd_date (dc : ChargeRec) (b : TransactionData) :
    (declineUpd dc b).date = b.date := rfl

theorem finalizeBucket_date (b : TransactionData) : (finalizeBucket b).date = b.date := rfl

theorem round2_zero : round2 0 = 0 := by
  simp [round2]

theorem finalizeBucket_initBucket (accountId : String) (d : Int) :
    finalizeBucket (initBucket accountId d) = initBucket accountId d := by
  simp [finalizeBucket, initBucket, round2_zero]

theorem dayPipeline_date (charges : List ChargeRec) (refunds : List RefundRec)
    (chargebacks : List DisputeRec) (declines : List ChargeRec)
    (dayOf : Int → Int) (accountId : String) (d : Int) :
    (dayPipeline charges refunds chargebacks declines dayOf accountId d).date = d := by
  unfold dayPipeline
  rw [finalizeBucket_date, applyRecs_date _ _ declineUpd_date,
    applyRecs_date _ _ chargebackUpd_date, applyRecs_date _ _ refundUpd_date,
    applyRecs_date _ _ chargeUpd_date]
  rfl

theorem rangeDays_length (s e : Int) : (rangeDays s e).length = (e - s + 1).toNat := by
  rw [rangeDays, List.length_map, List.length_range]

theorem mem_rangeDays {s e d : Int} : d ∈ rangeDays s e ↔ s ≤ d ∧ d ≤ e := by
  rw [rangeDays, List.mem_map]
  constructor
  · rintro ⟨i, hi, rfl⟩
    rw [List.mem_range] at hi
    omega
  · intro h
    refine ⟨(d - s).toNat, ?_, ?_⟩
    · rw [List.mem_range]
      omega
    · omega

theorem rangeDays_nodup (s e : Int) : (rangeDays s e).Nodup := by
  rw [rangeDays]
  refine (List.nodup_range _).map ?_
  intro a b hab
  have hab2 : s + (a : Int) = s + (b : Int) := hab
  omega

/-- C1: for every pair of calendar dates with startDate less than or
equal to endDate, every timezone (modelled by the arbitrary
timestamp-to-day map `dayOf`), and arbitrary input record lists,
`groupTransactionsByDate` returns exactly `endDate - startDate + 1`
daily buckets, one per calendar day of the inclusive range (no gap, no
duplicate), and a bucket on whose day no record falls is the zero-filled
initial bucket. -/
theorem c1_bucket_completeness (charges : List ChargeRec) (refunds : List RefundRec)
    (chargebacks : List DisputeRec) (declines : List ChargeRec)
    (s e : Int) (dayOf : Int → Int) (acct : String) (hse : s ≤ e)
    (out : List TransactionData)
    (hout : out = groupTransactionsByDate charges refunds chargebacks declines s e dayOf acct) :
    out.map TransactionData.date = rangeDays s e
  ∧ (out.length : Int) = e - s + 1
  ∧ (out.map TransactionData.date).Nodup
  ∧ (∀ d : Int, d ∈ out.map TransactionData.date ↔ s ≤ d ∧ d ≤ e)
  ∧ (∀ b ∈ out,
      (∀ c ∈ charges, dayOf c.created ≠ b.date) →
      (∀ r ∈ refunds, dayOf r.created ≠ b.date) →
      (∀ cb ∈ chargebacks, dayOf cb.created ≠ b.date) →
      (∀ dc ∈ declines, dayOf dc.created ≠ b.date) →
      b = initBucket acct b.date) := by
  subst hout
  have hmap : (groupTransactionsByDate charges refunds chargebacks declines s e dayOf
      acct).map TransactionData.date = rangeDays s e := by
    rw [groupTransactionsByDate_eq_map, List.map_map]
    have hfun : (TransactionData.date ∘
        dayPipeline charges refunds chargebacks declines dayOf acct) = fun d => d := by
      funext d
      exact dayPipeline_date charges refunds chargebacks declines dayOf acct d
    rw [hfun, List.map_id']
  refine ⟨hmap, ?_, ?_, ?_, ?_⟩
  · rw [groupTransactionsByDate_eq_map, List.length_map, rangeDays_length]
    omega
  · rw [hmap]
    exact rangeDays_nodup s e
  · intro d
    rw [hmap]
    exact mem_rangeDays
  · intro b hb hc hr hcb hdc
    rw [groupTransactionsByDate_eq_map] at hb
    obtain ⟨d, hd, rfl⟩ := List.mem_map.1 hb
    rw [dayPipeline_date] at hc hr hcb hdc ⊢
    unfold dayPipeline
    rw [applyRecs_of_no_hit _ _ charges _ hc, applyRecs_of_no_hit _ _ refunds _ hr,
      applyRecs_of_no_hit _ _ chargebacks _ hcb, applyRecs_of_no_hit _ _ declines _ hdc,
      finalizeBucket_initBucket]

/-- Witness for C1: a concrete three-day range with no records yields
three buckets. -/
theorem c1_bucket_completeness_witness :
    ((0 : Int) ≤ 2)
  ∧ ((groupTransactionsByDate [] [] [] [] 0 2 (fun t => t) "acct_1").length : Int)
      = 2 - 0 + 1 :=
  ⟨by decide,
   (c1_bucket_completeness [] [] [] [] 0 2 (fun t => t) "acct_1" (by decide) _ rfl).2.1⟩

/-- The amount of a record in minor units is an integer, so every
monetary field of a bucket is an integer divided by 100. -/
def DenOk (q : ℚ) : Prop := ∃ n : ℤ, q = (n : ℚ) / 100

theorem round2_div100 (n : ℤ) : round2 ((n : ℚ) / 100) = (n : ℚ) / 100 := by
  unfold round2
  rw [div_mul_cancel₀ _ (by norm_num : (100 : ℚ) ≠ 0), round_intCast]

theorem denOk_zero : DenOk 0 := ⟨0, by norm_num⟩

theorem denOk_add (q : ℚ) (a : Int) (h : DenOk q) : DenOk (q + (a : ℚ) / 100) := by
  obtain ⟨n, rfl⟩ := h
  exact ⟨n + a, by push_cast; ring⟩

theorem denOk_round2 {q : ℚ} (h : DenOk q) : round2 q = q := by
  obtain ⟨n, rfl⟩ := h
  exact round2_div100 n

/-- Per-bucket preservation of an invariant along the record fold. -/
theorem applyRecs_preserves {R : Type} (day : R → Int)
    (upd : R → TransactionData → TransactionData) (P : TransactionData → Prop)
    (hupd : ∀ r b, P b → P (upd r b)) (l : List R) (b : TransactionData) (hb : P b) :
    P (applyRecs day upd l b) := by
  induction l generalizing b with
  | nil => exact hb
  | cons r t ih =>
      rw [applyRecs_cons]
      apply ih
      split
      · exact hupd r b hb
      · exact hb

/-- The running money invariant of a bucket: every monetary field has
denominator 100 and the net total is charges minus refunds minus
chargebacks. -/
def MoneyInv (b : TransactionData) : Prop :=
  DenOk b.charges_amount ∧ DenOk b.refunds_amount ∧ DenOk b.chargebacks_amount
    ∧ b.totals_amount = b.charges_amount - b.refunds_amount - b.chargebacks_amount

theorem moneyInv_init (acct : String) (d : Int) : MoneyInv (initBucket acct d) :=
  ⟨denOk_zero, denOk_zero, denOk_zero, by norm_num [initBucket]⟩

theorem moneyInv_chargeUpd (c : ChargeRec) (b : TransactionData) (h : MoneyInv b) :
    MoneyInv (chargeUpd c b) := by
  obtain ⟨hC, hR, hD, ht⟩ := h
  refine ⟨denOk_add _ _ hC, hR, hD, ?_⟩
  simp only [chargeUpd]
  rw [ht]
  ring

theorem moneyInv_refundUpd (r : RefundRec) (b : TransactionData) (h : MoneyInv b) :
    MoneyInv (refundUpd r b) := by
  obtain ⟨hC, hR, hD, ht⟩ := h
  refine ⟨hC, denOk_add _ _ hR, hD, ?_⟩
  simp only [refundUpd]
  rw [ht]
  ring

theorem moneyInv_chargebackUpd (cb : DisputeRec) (b : TransactionData) (h : MoneyInv b) :
    MoneyInv (chargebackUpd cb b) := by
  obtain ⟨hC, hR, hD, ht⟩ := h
  refine ⟨hC, hR, denOk_add _ _ hD, ?_⟩
  simp only [chargebackUpd]
  rw [ht]
  ring

theorem moneyInv_declineUpd (dc : ChargeRec) (b : TransactionData) (h : MoneyInv b) :
    MoneyInv (declineUpd dc b) := h

theorem finalize_money (b : TransactionData) (h : MoneyInv b) :
    (finalizeBucket b).totals_amount
      = round2 ((finalizeBucket b).charges_amount - (finalizeBucket b).refunds_amount
          - (finalizeBucket b).chargebacks_amount) := by
  obtain ⟨⟨nc, hc⟩, ⟨nr, hr⟩, ⟨nd, hd⟩, ht⟩ := h
  have hsum : b.totals_amount = ((nc - nr - nd : ℤ) : ℚ) / 100 := by
    rw [ht, hc, hr, hd]
    push_cast
    ring
  show round2 b.totals_amount
      = round2 (round2 b.charges_amount - round2 b.refunds_amount
          - round2 b.chargebacks_amount)
  rw [hsum, hc, hr, hd, round2_div100, round2_div100, round2_div100, round2_div100]
  have hmerge : (nc : ℚ) / 100 - (nr : ℚ) / 100 - (nd : ℚ) / 100
      = ((nc - nr - nd : ℤ) : ℚ) / 100 := by
    push_cast
    ring
  rw [hmerge, round2_div100]

/-- The monetary fields of a bucket, as one tuple. -/
def moneyFields (b : TransactionData) : ℚ × ℚ × ℚ × ℚ :=
  (b.charges_amount, b.refunds_amount, b.chargebacks_amount, b.totals_amount)

theorem moneyFields_declineRecs (declines : List ChargeRec) (dayOf : Int → Int)
    (b : TransactionData) :
    moneyFields (applyRecs (fun dc => dayOf dc.created) declineUpd declines b)
      = moneyFields b := by
  exact applyRecs_preserves (fun dc => dayOf dc.created) declineUpd
    (fun x => moneyFields x = moneyFields b) (fun r x hx => hx) declines b rfl

theorem moneyFields_finalize (b : TransactionData) :
    moneyFields (finalizeBucket b)
      = (round2 b.charges_amount, round2 b.refunds_amount, round2 b.chargebacks_amount,
          round2 b.totals_amount) := rfl

/-- C2: in every bucket produced by `groupTransactionsByDate`, the net
total equals `round2 (charges - refunds - chargebacks)`, and decline
records change no monetary field (running the pipeline with the decline
list replaced by the empty list yields the same monetary fields). -/
theorem c2_signed_total (charges : List ChargeRec) (refunds : List RefundRec)
    (chargebacks : List DisputeRec) (declines : List ChargeRec)
    (s e : Int) (dayOf : Int → Int) (acct : String)
    (out : List TransactionData)
    (hout : out = groupTransactionsByDate charges refunds chargebacks declines s e dayOf acct) :
    (∀ b ∈ out,
      b.totals_amount = round2 (b.charges_amount - b.refunds_amount - b.chargebacks_amount))
  ∧ out.map moneyFields
      = (groupTransactionsByDate charges refunds chargebacks [] s e dayOf acct).map
          moneyFields := by
  subst hout
  constructor
  · intro b hb
    rw [groupTransactionsByDate_eq_map] at hb
    obtain ⟨d, hd, rfl⟩ := List.mem_map.1 hb
    unfold dayPipeline
    apply finalize_money
    apply applyRecs_preserves _ _ MoneyInv moneyInv_declineUpd
    apply applyRecs_preserves _ _ MoneyInv moneyInv_chargebackUpd
    apply applyRecs_preserves _ _ MoneyInv moneyInv_refundUpd
    apply applyRecs_preserves _ _ MoneyInv moneyInv_chargeUpd
    exact moneyInv_init acct d
  · rw [groupTransactionsByDate_eq_map, groupTransactionsByDate_eq_map,
      List.map_map, List.map_map]
    apply List.map_congr_left
    intro d hd
    show moneyFields (dayPipeline charges refunds chargebacks declines dayOf acct d)
      = moneyFields (dayPipeline charges refunds chargebacks [] dayOf acct d)
    unfold dayPipeline
    rw [moneyFields_finalize, moneyFields_finalize, applyRecs_of_no_hit _ _ [] _ (by simp)]
    have hstrip := moneyFields_declineRecs declines dayOf
      (applyRecs (fun cb => dayOf cb.created) chargebackUpd chargebacks
        (applyRecs (fun r => dayOf r.created) refundUpd refunds
          (applyRecs (fun c => dayOf c.created) chargeUpd charges (initBucket acct d))))
    simp only [moneyFields, Prod.mk.injEq] at hstrip
    rw [hstrip.1, hstrip.2.1, hstrip.2.2.1, hstrip.2.2.2]

/-- Witness for C2: one charge of 150 cents and one refund of 50 cents
on the single requested day give a net total of 1 = round2 (1.5 - 0.5 - 0). -/
theorem c2_signed_total_witness :
    ((⟨0, 1, 3/2, 1, 1/2, 0, 0, 0, 100, 2, 1, "acct_1"⟩ : TransactionData)
        ∈ groupTransactionsByDate [⟨"ch_1", 150, 0⟩] [⟨"re_1", 50, 0⟩] [] []
            0 0 (fun t => t) "acct_1")
  ∧ (⟨0, 1, 3/2, 1, 1/2, 0, 0, 0, 100, 2, 1, "acct_1"⟩ : TransactionData).totals_amount
      = round2 ((⟨0, 1, 3/2, 1, 1/2, 0, 0, 0, 100, 2, 1, "acct_1"⟩ :
          TransactionData).charges_amount
        - (⟨0, 1, 3/2, 1, 1/2, 0, 0, 0, 100, 2, 1, "acct_1"⟩ :
            TransactionData).refunds_amount
        - (⟨0, 1, 3/2, 1, 1/2, 0, 0, 0, 100, 2, 1, "acct_1"⟩ :
            TransactionData).chargebacks_amount) := by
  have hlist : groupTransactionsByDate [⟨"ch_1", 150, 0⟩] [⟨"re_1", 50, 0⟩] [] []
      0 0 (fun t => t) "acct_1"
      = [⟨0, 1, 3/2, 1, 1/2, 0, 0, 0, 100, 2, 1, "acct_1"⟩] := by
    norm_num [groupTransactionsByDate, rangeDays, bump, finalizeBucket, initBucket,
      chargeUpd, refundUpd, chargebackUpd, declineUpd, round2, round_eq, List.range_succ]
  have hmem : (⟨0, 1, 3/2, 1, 1/2, 0, 0, 0, 100, 2, 1, "acct_1"⟩ : TransactionData)
      ∈ groupTransactionsByDate [⟨"ch_1", 150, 0⟩] [⟨"re_1", 50, 0⟩] [] []
          0 0 (fun t => t) "acct_1" := by
    rw [hlist]
    exact List.mem_singleton.2 rfl
  exact ⟨hmem,
    (c2_signed_total [⟨"ch_1", 150, 0⟩] [⟨"re_1", 50, 0⟩] [] [] 0 0 (fun t => t) "acct_1"
      _ rfl).1 _ hmem⟩

/-- C3: the approval percentage of every bucket equals
`round2 (charges_count / (charges_count + declines_count) * 100)` when
the day saw at least one charge or decline, and 100 otherwise. -/
theorem c3_approval_percentage (charges : List ChargeRec) (refunds : List RefundRec)
    (chargebacks : List DisputeRec) (declines : List ChargeRec)
    (s e : Int) (dayOf : Int → Int) (acct : String)
    (out : List TransactionData)
    (hout : out = groupTransactionsByDate charges refunds chargebacks declines s e dayOf acct) :
    ∀ b ∈ out, b.aprvl_pct =
      if 0 < b.charges_count + b.declines_count then
        round2 ((b.charges_count : ℚ) / ((b.charges_count + b.declines_count : Nat) : ℚ) * 100)
      else 100 := by
  subst hout
  intro b hb
  rw [groupTransactionsByDate_eq_map] at hb
  obtain ⟨d, hd, rfl⟩ := List.mem_map.1 hb
  rfl

/-- Witness for C3: a day with three charges and one decline has
approval percentage 75; a day with no charge and no decline has 100. -/
theorem c3_approval_percentage_witness :
    ((⟨0, 3, 3, 0, 0, 0, 0, 1, 75, 4, 3, "acct_1"⟩ : TransactionData)
        ∈ groupTransactionsByDate [⟨"ch_1", 100, 0⟩, ⟨"ch_2", 100, 0⟩, ⟨"ch_3", 100, 0⟩]
            [] [] [⟨"ch_4", 100, 0⟩] 0 0 (fun t => t) "acct_1")
  ∧ (⟨0, 3, 3, 0, 0, 0, 0, 1, 75, 4, 3, "acct_1"⟩ : TransactionData).aprvl_pct
      = (if 0 < 3 + 1 then round2 ((3 : ℚ) / ((3 + 1 : Nat) : ℚ) * 100) else 100)
  ∧ (75 : ℚ) = (if 0 < 3 + 1 then round2 ((3 : ℚ) / ((3 + 1 : Nat) : ℚ) * 100) else 100)
  ∧ ((initBucket "acct_1" 0)
        ∈ groupTransactionsByDate [] [] [] [] 0 0 (fun t => t) "acct_1")
  ∧ (initBucket "acct_1" 0).aprvl_pct = 100 := by
  have hmem : (⟨0, 3, 3, 0, 0, 0, 0, 1, 75, 4, 3, "acct_1"⟩ : TransactionData)
      ∈ groupTransactionsByDate [⟨"ch_1", 100, 0⟩, ⟨"ch_2", 100, 0⟩, ⟨"ch_3", 100, 0⟩]
          [] [] [⟨"ch_4", 100, 0⟩] 0 0 (fun t => t) "acct_1" := by
    have hlist : groupTransactionsByDate [⟨"ch_1", 100, 0⟩, ⟨"ch_2", 100, 0⟩, ⟨"ch_3", 100, 0⟩]
        [] [] [⟨"ch_4", 100, 0⟩] 0 0 (fun t => t) "acct_1"
        = [⟨0, 3, 3, 0, 0, 0, 0, 1, 75, 4, 3, "acct_1"⟩] := by
      norm_num [groupTransactionsByDate, rangeDays, bump, finalizeBucket, initBucket,
        chargeUpd, refundUpd, chargebackUpd, declineUpd, round2, round_eq, List.range_succ]
    rw [hlist]
    exact List.mem_singleton.2 rfl
  have hempty : groupTransactionsByDate [] [] [] [] 0 0 (fun t => t) "acct_1"
      = [initBucket "acct_1" 0] := by
    norm_num [groupTransactionsByDate, rangeDays, bump, finalizeBucket, initBucket,
      round2, round_eq, List.range_succ]
  refine ⟨hmem,
    (c3_approval_percentage [⟨"ch_1", 100, 0⟩, ⟨"ch_2", 100, 0⟩, ⟨"ch_3", 100, 0⟩]
      [] [] [⟨"ch_4", 100, 0⟩] 0 0 (fun t => t) "acct_1" _ rfl) _ hmem, ?_, ?_, rfl⟩
  · norm_num [round2, round_eq]
  · rw [hempty]
    exact List.mem_singleton.2 rfl

/-- The JavaScript expression `o || d` on an optional string: the
default is taken when the value is absent or the empty string (both are
falsy). -/
def jsOrStr (o : Option String) (d : String) : String :=
  match o with
  | none => d
  | some s => if s = "" then d else s

/-- A raw Stripe account object: every projected field may be absent. -/
structure RawAccount where
  id : String
  business_type : Option String
  country : Option String
  charges_enabled : Option Bool
  payouts_enabled : Option Bool
  email : Option String
  type : Option String
  deriving DecidableEq

/-- The account summary pushed by `getMultiAccountTransactions`. -/
structure AccountInfo where
  id : String
  business_type : String
  country : String
  charges_enabled : Bool
  payouts_enabled : Bool
  email : String
  type : String
  deriving DecidableEq

/-- The field-defaulting projection applied to a retrieved account
(`account.business_type || 'individual'` and so on). -/
def accountInfoOf (a : RawAccount) : AccountInfo :=
  { id := a.id
    business_type := jsOrStr a.business_type "individual"
    country := jsOrStr a.country "US"
    charges_enabled := a.charges_enabled.getD false
    payouts_enabled := a.payouts_enabled.getD false
    email := jsOrStr a.email ""
    type := jsOrStr a.type "express" }

/-- The body of the per-account loop of `getMultiAccountTransactions`:
retrieve the account (a throw skips the account entirely), push its
info, fetch its transaction rows (a throw keeps the info but adds no
rows), and tag every row with the source account identifier. -/
def multiStep (retrieve : String → Except Unit RawAccount)
    (getTransactions : String → Except Unit (List TransactionData))
    (acc : List TransactionData × List AccountInfo) (accountId : String) :
    List TransactionData × List AccountInfo :=
  match retrieve accountId with
  | .error _ => acc
  | .ok account =>
      match getTransactions accountId with
      | .error _ => (acc.1, acc.2 ++ [accountInfoOf account])
      | .ok txs =>
          (acc.1 ++ txs.map (fun tx => { tx with account_id := accountId }),
           acc.2 ++ [accountInfoOf account])

/-- The final `allTransactions.sort((a, b) => date b - date a)`:
descending by date. -/
def sortByDateDesc (l : List TransactionData) : List TransactionData :=
  l.mergeSort (fun a b => decide (b.date ≤ a.date))

/-- `getMultiAccountTransactions` from `stripeService.ts`: iterate the
account list, skip an account whose retrieve or fetch throws (the catch
block logs and continues), concatenate the tagged rows and sort them by
date descending.  The function is total: no input makes it throw. -/
def getMultiAccountTransactions (retrieve : String → Except Unit RawAccount)
    (getTransactions : String → Except Unit (List TransactionData))
    (accountIds : List String) : List TransactionData × List AccountInfo :=
  (sortByDateDesc (accountIds.foldl (multiStep retrieve getTransactions) ([], [])).1,
   (accountIds.foldl (multiStep retrieve getTransactions) ([], [])).2)

theorem mem_sortByDateDesc {tx : TransactionData} {l : List TransactionData} :
    tx ∈ sortByDateDesc l ↔ tx ∈ l :=
  (List.mergeSort_perm l _).mem_iff

theorem multiStep_fst_append (retrieve : String → Except Unit RawAccount)
    (getTransactions : String → Except Unit (List TransactionData))
    (acc : List TransactionData × List AccountInfo) (accountId : String) :
    ∃ mid, (multiStep retrieve getTransactions acc accountId).1 = acc.1 ++ mid := by
  cases hret : retrieve accountId with
  | error e => exact ⟨[], by simp [multiStep, hret]⟩
  | ok account =>
      cases hget : getTransactions accountId with
      | error e => exact ⟨[], by simp [multiStep, hret, hget]⟩
      | ok txs =>
          exact ⟨txs.map (fun tx => { tx with account_id := accountId }),
            by simp [multiStep, hret, hget]⟩

theorem fold_fst_append (retrieve : String → Except Unit RawAccount)
    (getTransactions : String → Except Unit (List TransactionData)) :
    ∀ (ids : List String) (acc : List TransactionData × List AccountInfo),
      ∃ rest, (ids.foldl (multiStep retrieve getTransactions) acc).1 = acc.1 ++ rest := by
  intro ids
  induction ids with
  | nil => exact fun acc => ⟨[], by simp⟩
  | cons id t ih =>
      intro acc
      rw [List.foldl_cons]
      obtain ⟨rest, hrest⟩ := ih (multiStep retrieve getTransactions acc id)
      obtain ⟨mid, hmid⟩ := multiStep_fst_append retrieve getTransactions acc id
      exact ⟨mid ++ rest, by rw [hrest, hmid, List.append_assoc]⟩

theorem fold_fst_mem (retrieve : String → Except Unit RawAccount)
    (getTransactions : String → Except Unit (List TransactionData)) :
    ∀ (ids : List String) (acc : List TransactionData × List AccountInfo)
      (tx : TransactionData), tx ∈ (ids.foldl (multiStep retrieve getTransactions) acc).1 →
      tx ∈ acc.1
      ∨ (tx.account_id ∈ ids
          ∧ (∃ a, retrieve tx.account_id = .ok a)
          ∧ (∃ txs, getTransactions tx.account_id = .ok txs
              ∧ ∃ tx0 ∈ txs, tx = { tx0 with account_id := tx.account_id })) := by
  intro ids
  induction ids with
  | nil => exact fun acc tx h => .inl h
  | cons id t ih =>
      intro acc tx h
      rw [List.foldl_cons] at h
      rcases ih _ tx h with hin | ⟨hmem, hr, htx⟩
      · cases hret : retrieve id with
        | error e =>
            simp only [multiStep, hret] at hin
            exact .inl hin
        | ok account =>
            cases hget : getTransactions id with
            | error e =>
                simp only [multiStep, hret, hget] at hin
                exact .inl hin
            | ok txs =>
                simp only [multiStep, hret, hget] at hin
                rcases List.mem_append.1 hin with h1 | h2
                · exact .inl h1
                · obtain ⟨tx0, htx0, rfl⟩ := List.mem_map.1 h2
                  have hid : ({ tx0 with account_id := id } :
                      TransactionData).account_id = id := rfl
                  refine .inr ⟨?_, ?_, ?_⟩
                  · rw [hid]
                    exact List.mem_cons_self id t
                  · rw [hid, hret]
                    exact ⟨account, rfl⟩
                  · rw [hid, hget]
                    exact ⟨txs, rfl, tx0, htx0, rfl⟩
      · exact .inr ⟨List.mem_cons_of_mem _ hmem, hr, htx⟩

theorem fold_fst_complete (retrieve : String → Except Unit RawAccount)
    (getTransactions : String → Except Unit (List TransactionData)) :
    ∀ (ids : List String) (acc : List TransactionData × List AccountInfo)
      (accountId : String) (account : RawAccount) (txs : List TransactionData)
      (tx0 : TransactionData),
      accountId ∈ ids → retrieve accountId = .ok account →
      getTransactions accountId = .ok txs → tx0 ∈ txs →
      { tx0 with account_id := accountId }
        ∈ (ids.foldl (multiStep retrieve getTransactions) acc).1 := by
  intro ids
  induction ids with
  | nil =>
      intro _ _ _ _ _ hmem
      cases hmem
  | cons id t ih =>
      intro acc accountId account txs tx0 hmem hret hget htx0
      rw [List.foldl_cons]
      rcases List.mem_cons.1 hmem with rfl | hmem2
      · obtain ⟨rest, hrest⟩ :=
          fold_fst_append retrieve getTransactions t
            (multiStep retrieve getTransactions acc accountId)
        rw [hrest]
        apply List.mem_append_left
        simp only [multiStep, hret, hget]
        exact List.mem_append_right _ (List.mem_map_of_mem _ htx0)
      · exact ih _ accountId account txs tx0 hmem2 hret hget htx0

theorem fold_fst_allfail (retrieve : String → Except Unit RawAccount)
    (getTransactions : String → Except Unit (List TransactionData)) :
    ∀ (ids : List String) (acc : List TransactionData × List AccountInfo),
      (∀ accountId ∈ ids,
        retrieve accountId = .error () ∨ getTransactions accountId = .error ()) →
      (ids.foldl (multiStep retrieve getTransactions) acc).1 = acc.1 := by
  intro ids
  induction ids with
  | nil => exact fun acc _ => rfl
  | cons id t ih =>
      intro acc hall
      rw [List.foldl_cons, ih _ (fun a ha => hall a (List.mem_cons_of_mem _ ha))]
      rcases hall id (List.mem_cons_self id t) with h | h
      · simp [multiStep, h]
      · cases hret : retrieve id with
        | error e => simp [multiStep, hret]
        | ok account => simp [multiStep, hret, h]

/-- C5: every output row of `getMultiAccountTransactions` comes from an
account whose retrieve and fetch both succeeded and is tagged with that
account identifier; every row of a succeeding account appears in the
output; and when every account fails, the row list is empty (the
function is total, so it returns rather than throwing in every case). -/
theorem c5_partial_failure_tolerance (retrieve : String → Except Unit RawAccount)
    (getTransactions : String → Except Unit (List TransactionData))
    (accountIds : List String)
    (out : List TransactionData × List AccountInfo)
    (hout : out = getMultiAccountTransactions retrieve getTransactions accountIds) :
    (∀ tx ∈ out.1, tx.account_id ∈ accountIds
        ∧ (∃ a, retrieve tx.account_id = .ok a)
        ∧ (∃ txs, getTransactions tx.account_id = .ok txs
            ∧ ∃ tx0 ∈ txs, tx = { tx0 with account_id := tx.account_id }))
  ∧ (∀ accountId ∈ accountIds, ∀ (account : RawAccount) (txs : List TransactionData),
        retrieve accountId = .ok account → getTransactions accountId = .ok txs →
        ∀ tx0 ∈ txs, { tx0 with account_id := accountId } ∈ out.1)
  ∧ ((∀ accountId ∈ accountIds,
        retrieve accountId = .error () ∨ getTransactions accountId = .error ()) →
      out.1 = []) := by
  subst hout
  refine ⟨?_, ?_, ?_⟩
  · intro tx htx
    rw [getMultiAccountTransactions, mem_sortByDateDesc] at htx
    rcases fold_fst_mem retrieve getTransactions accountIds ([], []) tx htx with hin | hgood
    · cases hin
    · exact hgood
  · intro accountId hmem account txs hret hget tx0 htx0
    rw [getMultiAccountTransactions, mem_sortByDateDesc]
    exact fold_fst_complete retrieve getTransactions accountIds ([], [])
      accountId account txs tx0 hmem hret hget htx0
  · intro hall
    rw [getMultiAccountTransactions]
    show sortByDateDesc (accountIds.foldl (multiStep retrieve getTransactions) ([], [])).1 = []
    rw [fold_fst_allfail retrieve getTransactions accountIds ([], []) hall]
    rw [sortByDateDesc]
    exact List.mergeSort_nil

/-- Witness for C5: with three accounts of which the second throws, the
row of the first account is present in the output; with a single
account that throws, the output row list is empty. -/
theorem c5_partial_failure_tolerance_witness :
    ({ initBucket "acct_1" 0 with account_id := "acct_1" }
        ∈ (getMultiAccountTransactions
            (fun accountId => if accountId = "acct_2" then .error () else
                .ok ⟨accountId, none, none, none, none, none, none⟩)
            (fun accountId => if accountId = "acct_2" then .error () else
                .ok [initBucket accountId 0])
            ["acct_1", "acct_2", "acct_3"]).1)
  ∧ (getMultiAccountTransactions (fun _ => .error ()) (fun _ => .error ())
        ["acct_1"]).1 = [] :=
  ⟨(c5_partial_failure_tolerance
      (fun accountId => if accountId = "acct_2" then .error () else
          .ok ⟨accountId, none, none, none, none, none, none⟩)
      (fun accountId => if accountId = "acct_2" then .error () else
          .ok [initBucket accountId 0])
      ["acct_1", "acct_2", "acct_3"] _ rfl).2.1
      "acct_1" (by decide) ⟨"acct_1", none, none, none, none, none, none⟩
      [initBucket "acct_1" 0] rfl rfl _ (by decide),
   (c5_partial_failure_tolerance (fun _ => .error ()) (fun _ => .error ())
      ["acct_1"] _ rfl).2.2 (fun a _ => .inl rfl)⟩

/-- One page of an upstream list response: up to `limit` records plus
the `has_more` flag. -/
structure Page where
  data : List ChargeRec
  has_more : Bool
  deriving DecidableEq

/-- The parameters of one upstream list call: the page size, the cursor
(`starting_after`, absent on the first call), and the inclusive creation
time filter (absent only on the diagnostic probe call). -/
structure ListReq where
  limit : Nat
  starting_after : Option String
  created : Option (Int × Int)
  deriving DecidableEq

/-- The cursor taken from a response page:
`response.data[response.data.length - 1]?.id || null`, so the empty
list and an empty-string identifier both yield null. -/
def jsLastCursor (l : List ChargeRec) : Option String :=
  match l.getLast? with
  | none => none
  | some c => if c.id = "" then none else some c.id

/-- The mutable state of one pagination loop, extended with the trace of
the upstream calls it has issued. -/
structure CollectState where
  records : List ChargeRec
  hasMore : Bool
  startingAfter : Option String
  calls : List ListReq
  deriving DecidableEq

/-- The loop state before the first iteration. -/
def initCollect : CollectState := ⟨[], true, none, []⟩

/-- One iteration of the `while (hasMore)` loop of `getCharges`: issue a
list call with page size 100, the created filter, and the current
cursor; on a throw, stop the loop keeping the records collected so far;
otherwise append the page, take `has_more`, and advance the cursor over
the last record of the page. -/
def chargesStep (u : Option String → Except Unit Page) (gte lte : Int)
    (s : CollectState) : CollectState :=
  match u s.startingAfter with
  | .error _ =>
      { s with
        hasMore := false
        calls := s.calls ++ [⟨100, s.startingAfter, some (gte, lte)⟩] }
  | .ok page =>
      { records := s.records ++ page.data
        hasMore := page.has_more
        startingAfter := jsLastCursor page.data
        calls := s.calls ++ [⟨100, s.startingAfter, some (gte, lte)⟩] }

/-- The fuelled pagination loop of `getCharges` (the source loop has no
fuel; a run that exhausts its fuel is one that has not yet terminated,
which the final state's `hasMore` flag records). -/
def chargesLoop (u : Option String → Except Unit Page) (gte lte : Int) :
    Nat → CollectState → CollectState
  | 0, s => s
  | n + 1, s =>
      if s.hasMore then chargesLoop u gte lte n (chargesStep u gte lte s) else s

/-- The diagnostic call issued by `getCharges` when the loop collected
nothing: `charges.list({ limit: 5 })`, no created filter, no cursor. -/
def probeReq : ListReq := ⟨5, none, none⟩

/-- `getCharges` from `stripeService.ts`: the pagination loop, followed
by a diagnostic list call (result discarded) when no charge was found. -/
def getCharges (u : Option String → Except Unit Page) (gte lte : Int)
    (fuel : Nat) : CollectState :=
  if (chargesLoop u gte lte fuel initCollect).records.length = 0 then
    { chargesLoop u gte lte fuel initCollect with
      calls := (chargesLoop u gte lte fuel initCollect).calls ++ [probeReq] }
  else chargesLoop u gte lte fuel initCollect

/-- One iteration of the `while (hasMore)` loop of `getDeclines`; the
source body is a verbatim copy of the `getCharges` loop body, with no
failure-status filter added. -/
def declinesStep (u : Option String → Except Unit Page) (gte lte : Int)
    (s : CollectState) : CollectState :=
  match u s.startingAfter with
  | .error _ =>
      { s with
        hasMore := false
        calls := s.calls ++ [⟨100, s.startingAfter, some (gte, lte)⟩] }
  | .ok page =>
      { records := s.records ++ page.data
        hasMore := page.has_more
        startingAfter := jsLastCursor page.data
        calls := s.calls ++ [⟨100, s.startingAfter, some (gte, lte)⟩] }

/-- The fuelled pagination loop of `getDeclines`. -/
def declinesLoop (u : Option String → Except Unit Page) (gte lte : Int) :
    Nat → CollectState → CollectState
  | 0, s => s
  | n + 1, s =>
      if s.hasMore then declinesLoop u gte lte n (declinesStep u gte lte s) else s

/-- `getDeclines` from `stripeService.ts`: the same pagination loop over
the same charge-listing endpoint, without the diagnostic call. -/
def getDeclines (u : Option String → Except Unit Page) (gte lte : Int)
    (fuel : Nat) : CollectState :=
  declinesLoop u gte lte fuel initCollect

theorem chargesLoop_succ (u : Option String → Except Unit Page) (gte lte : Int)
    (n : Nat) (s : CollectState) :
    chargesLoop u gte lte (n + 1) s
      = if s.hasMore then chargesLoop u gte lte n (chargesStep u gte lte s) else s := rfl

theorem chargesStep_ok (u : Option String → Except Unit Page) (gte lte : Int)
    (s : CollectState) (page : Page) (h : u s.startingAfter = .ok page) :
    chargesStep u gte lte s
      = { records := s.records ++ page.data
          hasMore := page.has_more
          startingAfter := jsLastCursor page.data
          calls := s.calls ++ [⟨100, s.startingAfter, some (gte, lte)⟩] } := by
  unfold chargesStep
  rw [h]

theorem chargesStep_error (u : Option String → Except Unit Page) (gte lte : Int)
    (s : CollectState) (h : u s.startingAfter = .error ()) :
    chargesStep u gte lte s
      = { s with
          hasMore := false
          calls := s.calls ++ [⟨100, s.startingAfter, some (gte, lte)⟩] } := by
  unfold chargesStep
  rw [h]

theorem chargesLoop_stop (u : Option String → Except Unit Page) (gte lte : Int)
    (n : Nat) (s : CollectState) (h : s.hasMore = false) :
    chargesLoop u gte lte n s = s := by
  cases n with
  | zero => rfl
  | succ n => simp [chargesLoop, h]

/-- C6: over a mock upstream serving two full pages of 100 records and a
final page of 37 with `has_more = false`, the collector returns exactly
the 237 records in upstream order and issues exactly three list calls,
each with page size 100 and cursored on the previous page's last record
identifier. -/
theorem c6_pagination_exhaustion
    (u : Option String → Except Unit Page) (gte lte : Int)
    (p1 p2 p3 : List ChargeRec) (c1 c2 : ChargeRec)
    (h1 : u none = .ok ⟨p1, true⟩)
    (hlast1 : p1.getLast? = some c1) (hc1 : c1.id ≠ "")
    (h2 : u (some c1.id) = .ok ⟨p2, true⟩)
    (hlast2 : p2.getLast? = some c2) (hc2 : c2.id ≠ "")
    (h3 : u (some c2.id) = .ok ⟨p3, false⟩)
    (hp1 : p1.length = 100) (hp2 : p2.length = 100) (hp3 : p3.length = 37)
    (fuel : Nat) (hfuel : 3 ≤ fuel) :
    (getCharges u gte lte fuel).records = p1 ++ (p2 ++ p3)
  ∧ (getCharges u gte lte fuel).records.length = 237
  ∧ (getCharges u gte lte fuel).calls
      = [⟨100, none, some (gte, lte)⟩, ⟨100, some c1.id, some (gte, lte)⟩,
          ⟨100, some c2.id, some (gte, lte)⟩]
  ∧ (getCharges u gte lte fuel).hasMore = false := by
  obtain ⟨k, rfl⟩ : ∃ k, fuel = k + 3 := ⟨fuel - 3, by omega⟩
  have hstep1 : chargesStep u gte lte initCollect
      = ⟨p1, true, some c1.id, [⟨100, none, some (gte, lte)⟩]⟩ := by
    rw [chargesStep_ok u gte lte initCollect ⟨p1, true⟩ h1]
    simp [jsLastCursor, hlast1, hc1, initCollect]
  have hstep2 : chargesStep u gte lte
        ⟨p1, true, some c1.id, [⟨100, none, some (gte, lte)⟩]⟩
      = ⟨p1 ++ p2, true, some c2.id,
          [⟨100, none, some (gte, lte)⟩, ⟨100, some c1.id, some (gte, lte)⟩]⟩ := by
    rw [chargesStep_ok u gte lte _ ⟨p2, true⟩ h2]
    simp [jsLastCursor, hlast2, hc2]
  have hstep3 : chargesStep u gte lte
        ⟨p1 ++ p2, true, some c2.id,
          [⟨100, none, some (gte, lte)⟩, ⟨100, some c1.id, some (gte, lte)⟩]⟩
      = ⟨(p1 ++ p2) ++ p3, false, jsLastCursor p3,
          [⟨100, none, some (gte, lte)⟩, ⟨100, some c1.id, some (gte, lte)⟩,
            ⟨100, some c2.id, some (gte, lte)⟩]⟩ := by
    rw [chargesStep_ok u gte lte _ ⟨p3, false⟩ h3]
    simp
  have hloop : chargesLoop u gte lte (k + 3) initCollect
      = ⟨(p1 ++ p2) ++ p3, false, jsLastCursor p3,
          [⟨100, none, some (gte, lte)⟩, ⟨100, some c1.id, some (gte, lte)⟩,
            ⟨100, some c2.id, some (gte, lte)⟩]⟩ := by
    rw [chargesLoop_succ, if_pos (show initCollect.hasMore = true from rfl), hstep1,
      chargesLoop_succ, if_pos rfl, hstep2, chargesLoop_succ, if_pos rfl, hstep3,
      chargesLoop_stop _ _ _ _ _ rfl]
  have hlen : ((p1 ++ p2) ++ p3).length = 237 := by
    simp [hp1, hp2, hp3]
  have hrun : getCharges u gte lte (k + 3)
      = ⟨(p1 ++ p2) ++ p3, false, jsLastCursor p3,
          [⟨100, none, some (gte, lte)⟩, ⟨100, some c1.id, some (gte, lte)⟩,
            ⟨100, some c2.id, some (gte, lte)⟩]⟩ := by
    rw [getCharges, hloop, if_neg (by rw [hlen]; exact (by decide : ¬(237 = 0)))]
  rw [hrun]
  refine ⟨by simp, by simpa using hlen, rfl, rfl⟩

/-- Witness for C6: a concrete upstream serving pages of 100, 100 and
37 records (page boundaries marked by the identifiers of the last
records of the first two pages). -/
theorem c6_pagination_exhaustion_witness :
    (getCharges
        (fun cursor =>
          if cursor = none then
            .ok ⟨List.replicate 99 (⟨"x", 100, 0⟩ : ChargeRec) ++ [(⟨"a", 100, 0⟩ : ChargeRec)], true⟩
          else if cursor = some "a" then
            .ok ⟨List.replicate 99 (⟨"x", 100, 0⟩ : ChargeRec) ++ [(⟨"b", 100, 0⟩ : ChargeRec)], true⟩
          else if cursor = some "b" then
            .ok ⟨List.replicate 37 (⟨"x", 100, 0⟩ : ChargeRec), false⟩
          else .error ())
        0 99 3).records.length = 237
  ∧ (getCharges
        (fun cursor =>
          if cursor = none then
            .ok ⟨List.replicate 99 (⟨"x", 100, 0⟩ : ChargeRec) ++ [(⟨"a", 100, 0⟩ : ChargeRec)], true⟩
          else if cursor = some "a" then
            .ok ⟨List.replicate 99 (⟨"x", 100, 0⟩ : ChargeRec) ++ [(⟨"b", 100, 0⟩ : ChargeRec)], true⟩
          else if cursor = some "b" then
            .ok ⟨List.replicate 37 (⟨"x", 100, 0⟩ : ChargeRec), false⟩
          else .error ())
        0 99 3).hasMore = false := by
  have happ := c6_pagination_exhaustion
    (fun cursor =>
      if cursor = none then
        .ok ⟨List.replicate 99 (⟨"x", 100, 0⟩ : ChargeRec) ++ [(⟨"a", 100, 0⟩ : ChargeRec)], true⟩
      else if cursor = some "a" then
        .ok ⟨List.replicate 99 (⟨"x", 100, 0⟩ : ChargeRec) ++ [(⟨"b", 100, 0⟩ : ChargeRec)], true⟩
      else if cursor = some "b" then
        .ok ⟨List.replicate 37 (⟨"x", 100, 0⟩ : ChargeRec), false⟩
      else .error ())
    0 99
    (List.replicate 99 (⟨"x", 100, 0⟩ : ChargeRec) ++ [(⟨"a", 100, 0⟩ : ChargeRec)])
    (List.replicate 99 (⟨"x", 100, 0⟩ : ChargeRec) ++ [(⟨"b", 100, 0⟩ : ChargeRec)])
    (List.replicate 37 (⟨"x", 100, 0⟩ : ChargeRec))
    (⟨"a", 100, 0⟩ : ChargeRec) (⟨"b", 100, 0⟩ : ChargeRec)
    rfl (by decide) (by decide) rfl (by decide) (by decide) rfl
    (by decide) (by decide) (by decide) 3 (by decide)
  exact ⟨happ.2.1, happ.2.2.2⟩

/-- C7 counterexample: against an upstream that always answers an empty
page with `has_more = true`, five loop iterations issue five identical
list calls and the loop is still live (`hasMore = true`), plus the
diagnostic call; an empty page does not terminate the loop. -/
theorem c7_empty_page_counterexample :
    (getCharges (fun _ => .ok ⟨[], true⟩) 0 0 5).hasMore = true
  ∧ (getCharges (fun _ => .ok ⟨[], true⟩) 0 0 5).records = []
  ∧ (getCharges (fun _ => .ok ⟨[], true⟩) 0 0 5).calls.length = 6
  ∧ (getCharges (fun _ => .ok ⟨[], true⟩) 0 0 5).calls.take 5
      = List.replicate 5 ⟨100, none, some (0, 0)⟩ := by decide

/-- C7 amended: a page stops the loop exactly when its `has_more` flag
is false; an empty page additionally resets the cursor to null and
contributes no record, so an empty page with `has_more = true` makes the
loop repeat the initial request forever (for every fuel bound the loop
state is still live with a null cursor and no records). -/
theorem c7_amended_empty_page (u : Option String → Except Unit Page) (gte lte : Int) :
    (∀ (s : CollectState) (page : Page), u s.startingAfter = .ok page →
        (chargesStep u gte lte s).hasMore = page.has_more
          ∧ (page.data = [] → (chargesStep u gte lte s).startingAfter = none
              ∧ (chargesStep u gte lte s).records = s.records))
  ∧ (u none = .ok ⟨[], true⟩ →
      ∀ n : Nat, (chargesLoop u gte lte n initCollect).hasMore = true
        ∧ (chargesLoop u gte lte n initCollect).startingAfter = none
        ∧ (chargesLoop u gte lte n initCollect).records = []) := by
  constructor
  · intro s page h
    rw [chargesStep_ok u gte lte s page h]
    refine ⟨rfl, fun hd => ⟨?_, ?_⟩⟩
    · rw [hd]
      rfl
    · rw [hd]
      simp
  · intro hu
    have key : ∀ (n : Nat) (s : CollectState),
        s.hasMore = true → s.startingAfter = none → s.records = [] →
        (chargesLoop u gte lte n s).hasMore = true
          ∧ (chargesLoop u gte lte n s).startingAfter = none
          ∧ (chargesLoop u gte lte n s).records = [] := by
      intro n
      induction n with
      | zero => exact fun s h1 h2 h3 => ⟨h1, h2, h3⟩
      | succ n ih =>
          intro s h1 h2 h3
          rw [chargesLoop_succ, if_pos h1,
            chargesStep_ok u gte lte s ⟨[], true⟩ (by rw [h2]; exact hu)]
          exact ih _ rfl rfl (by rw [h3]; rfl)
    exact fun n => key n initCollect rfl rfl rfl

/-- Witness for the amended C7 at the always-empty upstream. -/
theorem c7_amended_empty_page_witness :
    ((chargesStep (fun _ => .ok ⟨[], true⟩) 0 0 initCollect).startingAfter = none)
  ∧ (chargesLoop (fun _ => .ok ⟨[], true⟩) 0 0 4 initCollect).hasMore = true :=
  ⟨(((c7_amended_empty_page (fun _ => .ok ⟨[], true⟩) 0 0).1 initCollect
      ⟨[], true⟩ rfl).2 rfl).1,
   ((c7_amended_empty_page (fun _ => .ok ⟨[], true⟩) 0 0).2 rfl 4).1⟩

theorem declinesStep_eq_chargesStep (u : Option String → Except Unit Page)
    (gte lte : Int) (s : CollectState) :
    declinesStep u gte lte s = chargesStep u gte lte s := rfl

theorem declinesLoop_eq_chargesLoop (u : Option String → Except Unit Page)
    (gte lte : Int) :
    ∀ (n : Nat) (s : CollectState),
      declinesLoop u gte lte n s = chargesLoop u gte lte n s := by
  intro n
  induction n with
  | zero => exact fun s => rfl
  | succ n ih =>
      intro s
      show (if s.hasMore then declinesLoop u gte lte n (declinesStep u gte lte s) else s)
        = chargesLoop u gte lte (n + 1) s
      rw [chargesLoop_succ, declinesStep_eq_chargesStep, ih]

theorem getCharges_records (u : Option String → Except Unit Page) (gte lte : Int)
    (fuel : Nat) :
    (getCharges u gte lte fuel).records = (chargesLoop u gte lte fuel initCollect).records := by
  rw [getCharges]
  split
  · rfl
  · rfl

theorem getCharges_hasMore (u : Option String → Except Unit Page) (gte lte : Int)
    (fuel : Nat) :
    (getCharges u gte lte fuel).hasMore = (chargesLoop u gte lte fuel initCollect).hasMore := by
  rw [getCharges]
  split
  · rfl
  · rfl

theorem chargesStep_calls (u : Option String → Except Unit Page) (gte lte : Int)
    (s : CollectState) :
    (chargesStep u gte lte s).calls
      = s.calls ++ [⟨100, s.startingAfter, some (gte, lte)⟩] := by
  cases h : u s.startingAfter with
  | error e =>
      cases e
      rw [chargesStep_error u gte lte s h]
  | ok page =>
      rw [chargesStep_ok u gte lte s page h]

theorem chargesLoop_calls_shape (u : Option String → Except Unit Page) (gte lte : Int) :
    ∀ (n : Nat) (s : CollectState),
      (∀ r ∈ s.calls, r.limit = 100 ∧ r.created = some (gte, lte)) →
      ∀ r ∈ (chargesLoop u gte lte n s).calls,
        r.limit = 100 ∧ r.created = some (gte, lte) := by
  intro n
  induction n with
  | zero => exact fun s h => h
  | succ n ih =>
      intro s hs
      rw [chargesLoop_succ]
      split
      · apply ih
        intro r hr
        rw [chargesStep_calls] at hr
        rcases List.mem_append.1 hr with h1 | h2
        · exact hs r h1
        · rcases List.mem_singleton.1 h2 with rfl
          exact ⟨rfl, rfl⟩
      · exact hs

/-- C8: for every upstream behaviour, window and fuel, `getDeclines`
returns exactly the record sequence of `getCharges` (and agrees with its
loop on the termination flag and on the in-loop call trace); every list
call either collector issues inside the loop carries page size 100 and
the same created filter, and no failure-status predicate exists in the
request shape at all.  The two collections are duplicates. -/
theorem c8_declines_duplicate_charges (u : Option String → Except Unit Page)
    (gte lte : Int) (fuel : Nat) :
    (getDeclines u gte lte fuel).records = (getCharges u gte lte fuel).records
  ∧ (getDeclines u gte lte fuel).hasMore = (getCharges u gte lte fuel).hasMore
  ∧ (getDeclines u gte lte fuel).calls = (chargesLoop u gte lte fuel initCollect).calls
  ∧ ∀ r ∈ (getDeclines u gte lte fuel).calls,
      r.limit = 100 ∧ r.created = some (gte, lte) := by
  refine ⟨?_, ?_, ?_, ?_⟩
  · rw [getDeclines, declinesLoop_eq_chargesLoop, getCharges_records]
  · rw [getDeclines, declinesLoop_eq_chargesLoop, getCharges_hasMore]
  · rw [getDeclines, declinesLoop_eq_chargesLoop]
  · rw [getDeclines, declinesLoop_eq_chargesLoop]
    refine chargesLoop_calls_shape u gte lte fuel initCollect ?_
    intro r hr
    cases hr

/-- Witness for C8 at a one-page upstream. -/
theorem c8_declines_duplicate_charges_witness :
    (getDeclines (fun _ => .ok ⟨[(⟨"ch_1", 100, 5⟩ : ChargeRec)], false⟩) 0 9 2).records
      = (getCharges (fun _ => .ok ⟨[(⟨"ch_1", 100, 5⟩ : ChargeRec)], false⟩) 0 9 2).records
  ∧ ((⟨100, none, some (0, 9)⟩ : ListReq).limit = 100
      ∧ (⟨100, none, some (0, 9)⟩ : ListReq).created = some (0, 9)) :=
  ⟨(c8_declines_duplicate_charges
      (fun _ => .ok ⟨[(⟨"ch_1", 100, 5⟩ : ChargeRec)], false⟩) 0 9 2).1,
   (c8_declines_duplicate_charges
      (fun _ => .ok ⟨[(⟨"ch_1", 100, 5⟩ : ChargeRec)], false⟩) 0 9 2).2.2.2
      ⟨100, none, some (0, 9)⟩ (by decide)⟩

/-- `event.type.startsWith(p)`: the character sequence of `p` is a
prefix of the character sequence of the type string. -/
def strStartsWith (s p : String) : Bool := p.data.isPrefixOf s.data

/-- The payment-related filter of `getEvents`. -/
def isPaymentRelated (t : String) : Bool :=
  strStartsWith t "charge." || strStartsWith t "payment_intent."
    || strStartsWith t "refund." || strStartsWith t "dispute."
    || strStartsWith t "balance."

/-- A raw event record: identifier, type string, creation time. -/
structure EventRec where
  id : String
  type : String
  created : Int
  deriving DecidableEq

/-- One page of an upstream events response. -/
structure EventPage where
  data : List EventRec
  has_more : Bool
  deriving DecidableEq

/-- `response.data[response.data.length - 1]?.id || null` for events. -/
def jsLastEventCursor (l : List EventRec) : Option String :=
  match l.getLast? with
  | none => none
  | some ev => if ev.id = "" then none else some ev.id

/-- The state of the events pagination loop. -/
structure EventCollectState where
  records : List EventRec
  hasMore : Bool
  startingAfter : Option String
  calls : List ListReq
  deriving DecidableEq

/-- The events loop state before the first iteration. -/
def initEventCollect : EventCollectState := ⟨[], true, none, []⟩

/-- One iteration of the `getEvents` loop: fetch a page, keep only the
payment-related events, but advance the cursor over the last element of
the unfiltered page. -/
def eventsStep (u : Option String → Except Unit EventPage) (gte lte : Int)
    (s : EventCollectState) : EventCollectState :=
  match u s.startingAfter with
  | .error _ =>
      { s with
        hasMore := false
        calls := s.calls ++ [⟨100, s.startingAfter, some (gte, lte)⟩] }
  | .ok page =>
      { records := s.records ++ page.data.filter (fun ev => isPaymentRelated ev.type)
        hasMore := page.has_more
        startingAfter := jsLastEventCursor page.data
        calls := s.calls ++ [⟨100, s.startingAfter, some (gte, lte)⟩] }

/-- The fuelled pagination loop of `getEvents`. -/
def eventsLoop (u : Option String → Except Unit EventPage) (gte lte : Int) :
    Nat → EventCollectState → EventCollectState
  | 0, s => s
  | n + 1, s =>
      if s.hasMore then eventsLoop u gte lte n (eventsStep u gte lte s) else s

/-- `getEvents` from `stripeService.ts`. -/
def getEvents (u : Option String → Except Unit EventPage) (gte lte : Int)
    (fuel : Nat) : EventCollectState :=
  eventsLoop u gte lte fuel initEventCollect

theorem eventsLoop_succ (u : Option String → Except Unit EventPage) (gte lte : Int)
    (n : Nat) (s : EventCollectState) :
    eventsLoop u gte lte (n + 1) s
      = if s.hasMore then eventsLoop u gte lte n (eventsStep u gte lte s) else s := rfl

theorem eventsStep_ok (u : Option String → Except Unit EventPage) (gte lte : Int)
    (s : EventCollectState) (page : EventPage) (h : u s.startingAfter = .ok page) :
    eventsStep u gte lte s
      = { records := s.records ++ page.data.filter (fun ev => isPaymentRelated ev.type)
          hasMore := page.has_more
          startingAfter := jsLastEventCursor page.data
          calls := s.calls ++ [⟨100, s.startingAfter, some (gte, lte)⟩] } := by
  unfold eventsStep
  rw [h]

theorem eventsStep_error (u : Option String → Except Unit EventPage) (gte lte : Int)
    (s : EventCollectState) (h : u s.startingAfter = .error ()) :
    eventsStep u gte lte s
      = { s with
          hasMore := false
          calls := s.calls ++ [⟨100, s.startingAfter, some (gte, lte)⟩] } := by
  unfold eventsStep
  rw [h]

/-- C10: every event returned by `getEvents` has a type starting with
one of the five payment prefixes (all other events of a page are
dropped), while one loop iteration still advances the cursor over the
last element of the unfiltered page. -/
theorem c10_event_filtering (u : Option String → Except Unit EventPage) (gte lte : Int)
    (fuel : Nat) :
    (∀ ev ∈ (getEvents u gte lte fuel).records, isPaymentRelated ev.type = true)
  ∧ (∀ (s : EventCollectState) (page : EventPage), u s.startingAfter = .ok page →
      (eventsStep u gte lte s).records
          = s.records ++ page.data.filter (fun ev => isPaymentRelated ev.type)
        ∧ (eventsStep u gte lte s).startingAfter = jsLastEventCursor page.data) := by
  constructor
  · have key : ∀ (n : Nat) (s : EventCollectState),
        (∀ ev ∈ s.records, isPaymentRelated ev.type = true) →
        ∀ ev ∈ (eventsLoop u gte lte n s).records, isPaymentRelated ev.type = true := by
      intro n
      induction n with
      | zero => exact fun s h => h
      | succ n ih =>
          intro s hs
          rw [eventsLoop_succ]
          split
          · apply ih
            intro ev hev
            cases hu : u s.startingAfter with
            | error e =>
                cases e
                rw [eventsStep_error u gte lte s hu] at hev
                exact hs ev hev
            | ok page =>
                rw [eventsStep_ok u gte lte s page hu] at hev
                rcases List.mem_append.1 hev with h1 | h2
                · exact hs ev h1
                · exact (List.mem_filter.1 h2).2
          · exact hs
    refine key fuel initEventCollect ?_
    intro ev h
    cases h
  · intro s page h
    rw [eventsStep_ok u gte lte s page h]
    exact ⟨rfl, rfl⟩

/-- Witness for C10: a page holding a `charge.succeeded` and an
`invoice.paid` event keeps only the former. -/
theorem c10_event_filtering_witness :
    ((⟨"evt_1", "charge.succeeded", 0⟩ : EventRec)
        ∈ (getEvents (fun _ => .ok ⟨[(⟨"evt_1", "charge.succeeded", 0⟩ : EventRec),
              (⟨"evt_2", "invoice.paid", 0⟩ : EventRec)], false⟩) 0 9 1).records)
  ∧ isPaymentRelated "charge.succeeded" = true
  ∧ (getEvents (fun _ => .ok ⟨[(⟨"evt_1", "charge.succeeded", 0⟩ : EventRec),
        (⟨"evt_2", "invoice.paid", 0⟩ : EventRec)], false⟩) 0 9 1).records
      = [⟨"evt_1", "charge.succeeded", 0⟩] := by
  have hmem : (⟨"evt_1", "charge.succeeded", 0⟩ : EventRec)
      ∈ (getEvents (fun _ => .ok ⟨[(⟨"evt_1", "charge.succeeded", 0⟩ : EventRec),
            (⟨"evt_2", "invoice.paid", 0⟩ : EventRec)], false⟩) 0 9 1).records := by
    decide
  exact ⟨hmem,
    (c10_event_filtering (fun _ => .ok ⟨[(⟨"evt_1", "charge.succeeded", 0⟩ : EventRec),
        (⟨"evt_2", "invoice.paid", 0⟩ : EventRec)], false⟩) 0 9 1).1 _ hmem,
    by decide⟩

/-- A metadata object: a partial map from string keys to string values. -/
def Meta : Type := String → Option String

/-- A nested payment-intent reference on a charge (may itself lack a
metadata object). -/
structure PIRef where
  metadata : Option Meta

/-- The slice of a raw charge read by the customer-ip computation of the
detailed charges mapping; the route never reads a source reference for
this field, and the remaining flattened row fields are independent
scalar copies that play no role here. -/
structure ChargeDetail where
  metadata : Option Meta
  payment_intent : Option PIRef

/-- `obj?.k` : optional-chained metadata access. -/
def mget (m : Option Meta) (k : String) : Option String :=
  match m with
  | none => none
  | some f => f k

/-- `charge.payment_intent?.metadata` . -/
def piMeta (c : ChargeDetail) : Option Meta :=
  match c.payment_intent with
  | none => none
  | some pi => pi.metadata

/-- The `customer_ip` expression of the detailed charges mapping: a
JavaScript or-chain over six metadata candidates ending in the empty
string.  There is no IP-syntax validation anywhere in the chain, and no
source-reference fallback; the function is total, so normalization never
throws on malformed input. -/
def detailedChargeCustomerIp (c : ChargeDetail) : String :=
  jsOrStr (mget c.metadata "customer_ip")
    (jsOrStr (mget c.metadata "ip_address")
      (jsOrStr (mget c.metadata "client_ip")
        (jsOrStr (mget (piMeta c) "customer_ip")
          (jsOrStr (mget (piMeta c) "ip_address")
            (jsOrStr (mget (piMeta c) "client_ip") "")))))

/-- The `customer_ip` expression of the detailed payment-intent mapping
(candidates `customer_ip`, `ip_address`, `client_ip`, `request_ip` on
the payment-intent metadata only). -/
def detailedPaymentIntentCustomerIp (m : Option Meta) : String :=
  jsOrStr (mget m "customer_ip")
    (jsOrStr (mget m "ip_address")
      (jsOrStr (mget m "client_ip")
        (jsOrStr (mget m "request_ip") "")))

/-- The first truthy candidate of a list, else the empty string. -/
def firstTruthy : List (Option String) → String
  | [] => ""
  | o :: rest => jsOrStr o (firstTruthy rest)

/-- C4 counterexample: a charge whose only metadata candidate is the
syntactically invalid literal `not-an-ip` normalizes to `not-an-ip`,
not to the empty string: the detail view applies no IP validation. -/
theorem c4_ip_validation_counterexample :
    detailedChargeCustomerIp
        ⟨some (fun k => if k = "customer_ip" then some "not-an-ip" else none), none⟩
      = "not-an-ip"
  ∧ "not-an-ip" ≠ "" := by
  exact ⟨rfl, by decide⟩

/-- C4 amended: the detail-view customer ip is the first truthy value
among the charge metadata candidates `customer_ip`, `ip_address`,
`client_ip` followed by the same three keys of the nested payment-intent
metadata, with no syntactic IP validation and no source-reference
fallback, and the empty string when every candidate is absent; in
particular a charge without own candidates whose payment-intent metadata
carries `client_ip` yields that value verbatim. -/
theorem c4_amended_ip_extraction (c : ChargeDetail) :
    detailedChargeCustomerIp c
      = firstTruthy [mget c.metadata "customer_ip", mget c.metadata "ip_address",
          mget c.metadata "client_ip", mget (piMeta c) "customer_ip",
          mget (piMeta c) "ip_address", mget (piMeta c) "client_ip"]
  ∧ (mget c.metadata "customer_ip" = none → mget c.metadata "ip_address" = none →
      mget c.metadata "client_ip" = none → mget (piMeta c) "customer_ip" = none →
      mget (piMeta c) "ip_address" = none →
      mget (piMeta c) "client_ip" = some "203.0.113.5" →
      detailedChargeCustomerIp c = "203.0.113.5") := by
  constructor
  · rfl
  · intro h1 h2 h3 h4 h5 h6
    unfold detailedChargeCustomerIp
    rw [h1, h2, h3, h4, h5, h6]
    rfl

/-- Witness for the amended C4: the payment-intent `client_ip` example. -/
theorem c4_amended_ip_extraction_witness :
    detailedChargeCustomerIp
        ⟨none, some ⟨some (fun k => if k = "client_ip" then some "203.0.113.5" else none)⟩⟩
      = "203.0.113.5" :=
  (c4_amended_ip_extraction
      ⟨none, some ⟨some (fun k => if k = "client_ip" then some "203.0.113.5" else none)⟩⟩).2
    rfl rfl rfl rfl rfl rfl

/-- `accountIds.split(',')` on the character sequence: splitting on a
single comma always yields at least one (possibly empty) segment. -/
def splitOnComma : List Char → List (List Char)
  | [] => [[]]
  | c :: rest =>
      if c = ',' then [] :: splitOnComma rest
      else
        match splitOnComma rest with
        | [] => [[c]]
        | h :: t => (c :: h) :: t

/-- `id.trim()` : strip whitespace from both ends. -/
def trimChars (l : List Char) : List Char :=
  ((l.dropWhile Char.isWhitespace).reverse.dropWhile Char.isWhitespace).reverse

/-- `accountIds.split(',').map(id => id.trim())`. -/
def splitTrim (accountIds : String) : List String :=
  (splitOnComma accountIds.data).map (fun cs => String.mk (trimChars cs))

theorem splitOnComma_ne_nil (l : List Char) : splitOnComma l ≠ [] := by
  induction l with
  | nil => simp [splitOnComma]
  | cons c rest ih =>
      by_cases h : c = ','
      · simp [splitOnComma, h]
      · simp only [splitOnComma, if_neg h]
        cases hm : splitOnComma rest with
        | nil => simp
        | cons a b => simp

theorem splitTrim_ne_nil (s : String) : splitTrim s ≠ [] := by
  intro h
  exact splitOnComma_ne_nil s.data (List.map_eq_nil_iff.1 h)

/-- The response of the multi-account report route: either a 400
validation error or a success payload. -/
inductive MultiResp where
  | badRequest (msg : String)
  | success (txs : List TransactionData) (accounts : List AccountInfo)
  deriving DecidableEq

/-- `!start_date` on a query parameter: absent or empty string. -/
def jsFalsy (o : Option String) : Bool :=
  match o with
  | none => true
  | some s => decide (s = "")

/-- The part of the route handler after the period switch: date
validation, range validation, account-id parsing with the non-master
override, the (unreachable) empty-list check, then the upstream fetch.
The second component of the result is the list of service invocations
(account list and date range), empty exactly when no upstream call was
made.  The in-memory pagination of the success payload is omitted: it
happens after the fetch and is irrelevant to validation. -/
def multiHandlerValidated (validDate : String → Bool) (isAfter : String → String → Bool)
    (svc : List String → String → String → List TransactionData × List AccountInfo)
    (isMaster : Bool) (stripeId : String) (accountIds : String)
    (startDate endDate : String) :
    MultiResp × List (List String × String × String) :=
  if !(validDate startDate) || !(validDate endDate) then
    (.badRequest "Invalid date format. Use YYYY-MM-DD", [])
  else if isAfter startDate endDate then
    (.badRequest "start_date cannot be after end_date", [])
  else
    if (if !isMaster then [stripeId] else splitTrim accountIds).length = 0 then
      (.badRequest "At least one account ID is required", [])
    else
      (.success
        (svc (if !isMaster then [stripeId] else splitTrim accountIds) startDate endDate).1
        (svc (if !isMaster then [stripeId] else splitTrim accountIds) startDate endDate).2,
       [(if !isMaster then [stripeId] else splitTrim accountIds, startDate, endDate)])

/-- The multi-account report route handler: the period switch (preset
periods compute their dates from the clock, abstracted as
`presetDates`; the custom period requires both dates), then the shared
validation pipeline. -/
def multiHandler (validDate : String → Bool) (isAfter : String → String → Bool)
    (presetDates : String → String × String)
    (svc : List String → String → String → List TransactionData × List AccountInfo)
    (isMaster : Bool) (stripeId : String) (accountIds : String)
    (start_date end_date : Option String) (period : String) :
    MultiResp × List (List String × String × String) :=
  if period = "daily" ∨ period = "weekly" ∨ period = "monthly" then
    multiHandlerValidated validDate isAfter svc isMaster stripeId accountIds
      (presetDates period).1 (presetDates period).2
  else if period = "custom" then
    if jsFalsy start_date || jsFalsy end_date then
      (.badRequest "start_date and end_date are required for custom period", [])
    else
      multiHandlerValidated validDate isAfter svc isMaster stripeId accountIds
        (start_date.getD "") (end_date.getD "")
  else
    (.badRequest "Invalid period. Use: daily, weekly, monthly, or custom", [])

/-- C9 counterexample: a master request with valid dates and an empty
`accountIds` string (the empty account-identifier list) is not rejected:
splitting yields the one-element list containing the empty string, the
dead length-zero check does not fire, and the upstream service is
invoked with that list before a success response is returned. -/
theorem c9_empty_account_list_counterexample :
    multiHandler (fun _ => true) (fun _ _ => false) (fun _ => ("", ""))
        (fun _ _ _ => ([], [])) true "master_1" "" (some "2024-01-01")
        (some "2024-01-02") "custom"
      = (.success [] [], [([""], "2024-01-01", "2024-01-02")]) := by decide

/-- C9 amended: requests with missing (falsy) dates, unparseable dates
or an inverted range are rejected with the corresponding 400 message and
zero upstream calls; but the parsed account-identifier list is never
empty (splitting on a comma yields at least one element), so the
empty-list rejection is unreachable and a master request with valid
dates always proceeds to the upstream fetch with the parsed list. -/
theorem c9_amended_validation (validDate : String → Bool) (isAfter : String → String → Bool)
    (presetDates : String → String × String)
    (svc : List String → String → String → List TransactionData × List AccountInfo)
    (isMaster : Bool) (stripeId : String) (accountIds : String)
    (start_date end_date : Option String) :
    (jsFalsy start_date = true ∨ jsFalsy end_date = true →
      multiHandler validDate isAfter presetDates svc isMaster stripeId accountIds
          start_date end_date "custom"
        = (.badRequest "start_date and end_date are required for custom period", []))
  ∧ (∀ s e, start_date = some s → end_date = some e → s ≠ "" → e ≠ "" →
      (validDate s = false ∨ validDate e = false) →
      multiHandler validDate isAfter presetDates svc isMaster stripeId accountIds
          start_date end_date "custom"
        = (.badRequest "Invalid date format. Use YYYY-MM-DD", []))
  ∧ (∀ s e, start_date = some s → end_date = some e → s ≠ "" → e ≠ "" →
      validDate s = true → validDate e = true → isAfter s e = true →
      multiHandler validDate isAfter presetDates svc isMaster stripeId accountIds
          start_date end_date "custom"
        = (.badRequest "start_date cannot be after end_date", []))
  ∧ splitTrim accountIds ≠ []
  ∧ (∀ s e, start_date = some s → end_date = some e → s ≠ "" → e ≠ "" →
      validDate s = true → validDate e = true → isAfter s e = false → isMaster = true →
      (multiHandler validDate isAfter presetDates svc isMaster stripeId accountIds
          start_date end_date "custom").2
        = [(splitTrim accountIds, s, e)]) := by
  refine ⟨?_, ?_, ?_, splitTrim_ne_nil accountIds, ?_⟩
  · intro h
    rcases h with h | h <;>
      simp [multiHandler, h]
  · intro s e hs he hsne hene hv
    subst hs
    subst he
    rcases hv with hv | hv <;>
      simp [multiHandler, multiHandlerValidated, jsFalsy, hsne, hene, hv]
  · intro s e hs he hsne hene hv1 hv2 hafter
    subst hs
    subst he
    simp [multiHandler, multiHandlerValidated, jsFalsy, hsne, hene, hv1, hv2, hafter]
  · intro s e hs he hsne hene hv1 hv2 hafter hmaster
    subst hs
    subst he
    subst hmaster
    simp [multiHandler, multiHandlerValidated, jsFalsy, hsne, hene, hv1, hv2, hafter,
      splitTrim_ne_nil accountIds]

/-- Witness for the amended C9 at concrete requests. -/
theorem c9_amended_validation_witness :
    (multiHandler (fun _ => false) (fun _ _ => false) (fun _ => ("", ""))
        (fun _ _ _ => ([], [])) true "m_1" "acct_1" (some "bad-date")
        (some "2024-01-02") "custom"
      = (.badRequest "Invalid date format. Use YYYY-MM-DD", []))
  ∧ (multiHandler (fun _ => true) (fun _ _ => true) (fun _ => ("", ""))
        (fun _ _ _ => ([], [])) true "m_1" "acct_1" (some "2024-02-01")
        (some "2024-01-01") "custom"
      = (.badRequest "start_date cannot be after end_date", []))
  ∧ (multiHandler (fun _ => true) (fun _ _ => false) (fun _ => ("", ""))
        (fun _ _ _ => ([], [])) true "m_1" "acct_1" none
        (some "2024-01-02") "custom"
      = (.badRequest "start_date and end_date are required for custom period", [])) :=
  ⟨(c9_amended_validation (fun _ => false) (fun _ _ => false) (fun _ => ("", ""))
      (fun _ _ _ => ([], [])) true "m_1" "acct_1" (some "bad-date")
      (some "2024-01-02")).2.1 "bad-date" "2024-01-02" rfl rfl (by decide) (by decide)
      (.inl rfl),
   (c9_amended_validation (fun _ => true) (fun _ _ => true) (fun _ => ("", ""))
      (fun _ _ _ => ([], [])) true "m_1" "acct_1" (some "2024-02-01")
      (some "2024-01-01")).2.2.1 "2024-02-01" "2024-01-01" rfl rfl (by decide) (by decide)
      rfl rfl rfl,
   (c9_amended_validation (fun _ => true) (fun _ _ => false) (fun _ => ("", ""))
      (fun _ _ _ => ([], [])) true "m_1" "acct_1" none (some "2024-01-02")).1
      (.inl rfl)⟩

end StripeApp
